import Mathlib

/-!
Verification development for the Derivgrind derivative-propagation and
tape subsystem.  The definitions below are shallow embeddings of the C
sources: `derivgrind/dg_bar.c` (linearized expressions, identifier
counter, buffer of linearized expressions, bit-trick logical handling)
and `none/nl_main.c` (forward-mode differentiation of VEX IR
expressions and statements).  C `double` scalars are modelled exactly
by `ℚ`; every fact proved or refuted below only involves small dyadic
rationals, on which binary floating point arithmetic is exact.
Machine integers are modelled by `Nat`, with an explicit `% 2 ^ 64`
where 64-bit overflow matters.
-/

namespace Derivgrind

/-- Identifier of a variable on which a linearized expression depends.
The C type is `void*`; identifiers are only compared for equality and
order, so they are modelled as natural numbers. -/
abbrev Identifier := Nat

/-- Scalar type of values and partial derivatives (C `double`),
modelled exactly by the rationals. -/
abbrev Scalar := ℚ

/-- Maximal number of linear dependencies of a linearized expression
(dg_bar.c `MAX_NDEP`). -/
def MAX_NDEP : Nat := 100

/-- Representation of a value with linear dependencies (dg_bar.c
`LinExpr`).  The C struct stores a count `ndep` and two parallel
arrays `identifier` and `jacobian` of capacity `MAX_NDEP`; the live
prefix of those arrays is modelled by the list `deps` of
(identifier, jacobian) pairs, so that `ndep = deps.length`. -/
structure LinExpr where
  value : Scalar
  deps : List (Identifier × Scalar)
deriving DecidableEq

/-- Form the linear combination (k*a + l*b) of linear dependencies
(dg_bar.c `linearCombinationOfDependencies`).  The C code leaves the
value of the result unset (it is fresh `newLinExpr` storage); every
caller overwrites it, and `0` is used as the stand-in here. -/
def linearCombinationOfDependencies (k : Scalar) (a : LinExpr) (l : Scalar) (b : LinExpr) :
    LinExpr :=
  { value := 0
    deps := a.deps.map (fun p => (p.1, k * p.2)) ++ b.deps.map (fun p => (p.1, l * p.2)) }

/-- dg_bar.c `addLinExpr`. -/
def addLinExpr (a b : LinExpr) : LinExpr :=
  { linearCombinationOfDependencies 1 a 1 b with value := a.value + b.value }

/-- dg_bar.c `subLinExpr`. -/
def subLinExpr (a b : LinExpr) : LinExpr :=
  { linearCombinationOfDependencies 1 a (-1) b with value := a.value - b.value }

/-- dg_bar.c `mulLinExpr`: dependencies of `a` scaled by `b.value`,
dependencies of `b` scaled by `a.value`. -/
def mulLinExpr (a b : LinExpr) : LinExpr :=
  { linearCombinationOfDependencies b.value a a.value b with value := a.value * b.value }

/-- dg_bar.c `divLinExpr`: the C call is
`linearCombinationOfDependencies(-1./b->value, a, a->value/(b->value*b->value), b)`,
i.e. the dependencies of `a` are scaled by `-1/b.value` and the
dependencies of `b` by `a.value/(b.value*b.value)`; the value is
`a.value / b.value`. -/
def divLinExpr (a b : LinExpr) : LinExpr :=
  { linearCombinationOfDependencies (-1 / b.value) a (a.value / (b.value * b.value)) b with
      value := a.value / b.value }

/-- Initial value of the identifier counter (dg_bar.c
`static ULong next_identifier = 1`). -/
def next_identifier_init : Nat := 1

/-- dg_bar.c `newid`: post-increment of the 64-bit counter; the call
returns the current counter value, and the counter is incremented in
ULong (mod `2 ^ 64`) arithmetic. -/
def newid (s : Nat) : Nat × Nat := (s, (s + 1) % 2 ^ 64)

/-- Counter state after `n` calls to `newid`, starting from the
initial value. -/
def newidStateAfter : Nat → Nat
  | 0 => next_identifier_init
  | n + 1 => (newid (newidStateAfter n)).2

/-- Value returned by the k-th call to `newid` (k counted from 1). -/
def kthNewid (k : Nat) : Nat := (newid (newidStateAfter (k - 1))).1

/-- Contents of freshly malloc'd storage are unspecified; this junk
value is the model's stand-in for uninitialized `LinExpr` memory. -/
def mallocJunk : LinExpr := { value := 0, deps := [] }

/-- Global buffer state for linearized expressions (dg_bar.c globals
`buffer_linexpr`, `n_linexpr`, `max_linexpr`).  The list `buf` models
the whole allocated region, so a well-formed state has
`buf.length = maxn`; the first `n` entries are the live ones. -/
structure LinState where
  n : Nat
  maxn : Nat
  buf : List LinExpr
deriving DecidableEq

/-- dg_bar.c `newLinExpr`: when the buffer is full (`n = maxn`), a new
region of `2*n+1` structs is allocated, the `n` live entries are
copied over by `memcpy`, and `maxn` becomes `2*maxn+1`; then `ndep` of
entry `n` is set to 0 and that entry is handed out (its index is
returned here in place of the C pointer), incrementing `n`. -/
def newLinExpr (s : LinState) : LinState × Nat :=
  let s1 := if s.n = s.maxn then
      { s with maxn := 2 * s.maxn + 1
               buf := s.buf.take s.n ++ List.replicate (2 * s.n + 1 - s.n) mallocJunk }
    else s
  let buf2 := s1.buf.set s.n { s1.buf.getD s.n mallocJunk with deps := [] }
  ({ n := s.n + 1, maxn := s1.maxn, buf := buf2 }, s.n)

/-- Modelled from the spec: an entry of the operation tape (spec §3,
"Tape Entry").  The implementation file bar/dg_bar_tape.c is not among
the sources; only its callers are. -/
structure TapeEntry where
  index1 : Nat
  index2 : Nat
  diff1 : Scalar
  diff2 : Scalar
deriving DecidableEq

/-- Modelled from the spec: the append-only tape (spec §3, §6); the
entry at 0-based position p carries the implicit 1-based index p+1. -/
structure Tape where
  entries : List TapeEntry
deriving DecidableEq

/-- Modelled from the spec: `tapeAddStatement` of bar/dg_bar_tape.c
(file not among the sources).  Spec §4.4: if both partial derivatives
are exactly zero and both operand indices are 0, return 0 without
appending (activity pruning); otherwise append the entry and return
its fresh sequential index. -/
def tapeAddStatement (t : Tape) (i1 i2 : Nat) (d1 d2 : Scalar) : Tape × Nat :=
  if d1 = 0 ∧ d2 = 0 ∧ i1 = 0 ∧ i2 = 0 then (t, 0)
  else (⟨t.entries ++ [⟨i1, i2, d1, d2⟩]⟩, t.entries.length + 1)

/-- Modelled from the spec: `tapeAddStatement_noActivityAnalysis` of
bar/dg_bar_tape.c (file not among the sources).  Spec §4.4: the
non-pruning variant always appends and returns the fresh index. -/
def tapeAddStatement_noActivityAnalysis (t : Tape) (i1 i2 : Nat) (d1 d2 : Scalar) :
    Tape × Nat :=
  (⟨t.entries ++ [⟨i1, i2, d1, d2⟩]⟩, t.entries.length + 1)

/-- Struct at buffer position p; positions beyond the allocation read
as junk.  The functions below model dg_bar.c `mergesortLinExpr` and
`normalizeLinExpr` at the memory-layout level — with the buffer as an
explicit list of `LinExpr` structs and pointers as indices into it —
because the C code indexes whole neighbouring structs (`a[from_m]`,
`tmp[i]`), so its behaviour depends on that layout. -/
def structAt (buf : List LinExpr) (p : Nat) : LinExpr := buf.getD p mallocJunk

/-- Identifier `a->identifier[j]` of the struct at `aIdx`; stale array
slots beyond `ndep` read as the junk pair (0, 0). -/
def idAt (buf : List LinExpr) (aIdx j : Nat) : Identifier :=
  ((structAt buf aIdx).deps.getD j (0, 0)).1

/-- Merge phase of dg_bar.c `mergesortLinExpr`: the loop
`for(i=from;i<to;i++)` that fills `tmp[from..to)` from the two sorted
halves.  The comparison reads the identifier tuple array of the struct
at `aIdx` (`a->identifier[from_m] < a->identifier[sep_m]`), but the
assignment `tmp[i] = a[from_m++]` copies whole neighbouring structs of
the buffer.  The first argument is the loop fuel `to - i`. -/
def msMergeLoop (aIdx tmpIdx sep tto : Nat) :
    Nat → Nat → Nat → Nat → List LinExpr → List LinExpr
  | 0, _, _, _, buf => buf
  | k + 1, i, from_m, sep_m, buf =>
    if sep_m ≥ tto ∨ (from_m < sep ∧ idAt buf aIdx from_m < idAt buf aIdx sep_m) then
      msMergeLoop aIdx tmpIdx sep tto k (i + 1) (from_m + 1) sep_m
        (buf.set (tmpIdx + i) (structAt buf (aIdx + from_m)))
    else
      msMergeLoop aIdx tmpIdx sep tto k (i + 1) from_m (sep_m + 1)
        (buf.set (tmpIdx + i) (structAt buf (aIdx + sep_m)))

/-- Copy-back phase of dg_bar.c `mergesortLinExpr`: the loop
`for(i=from;i<to;i++) a[i] = tmp[i];`, again copying whole structs.
The first argument is the loop fuel `to - i`. -/
def msCopyLoop (aIdx tmpIdx : Nat) : Nat → Nat → List LinExpr → List LinExpr
  | 0, _, buf => buf
  | k + 1, i, buf =>
    msCopyLoop aIdx tmpIdx k (i + 1) (buf.set (aIdx + i) (structAt buf (tmpIdx + i)))

/-- dg_bar.c `mergesortLinExpr` with explicit recursion fuel.  The C
function recurses on the two halves `[from,sep)` and `[sep,to)` of the
interval; each half is strictly shorter than `to - from`, so fuel
`to - from` at the top-level call suffices for the recursion never to
be cut short. -/
def mergesortLinExprFuel : Nat → List LinExpr → Nat → Nat → Nat → Nat → List LinExpr
  | 0, buf, _, _, _, _ => buf
  | fuel + 1, buf, aIdx, frm, tto, tmpIdx =>
    if tto - frm ≤ 1 then buf
    else
      let sep := (frm + tto) / 2
      let buf1 := mergesortLinExprFuel fuel buf aIdx frm sep tmpIdx
      let buf2 := mergesortLinExprFuel fuel buf1 aIdx sep tto tmpIdx
      let buf3 := msMergeLoop aIdx tmpIdx sep tto (tto - frm) frm frm sep buf2
      msCopyLoop aIdx tmpIdx (tto - frm) frm buf3

/-- dg_bar.c `mergesortLinExpr(a, from, to, tmp)`, with `a` and `tmp`
given as buffer indices. -/
def mergesortLinExpr (buf : List LinExpr) (aIdx frm tto tmpIdx : Nat) : List LinExpr :=
  mergesortLinExprFuel (tto - frm) buf aIdx frm tto tmpIdx

/-- Inner while loop of dg_bar.c `normalizeLinExpr`:
`while(a->identifier[i]==id && i<a->ndep){ jacobian_sum += a->jacobian[i]; i++; }`.
Returns the new loop index and the accumulated jacobian sum.  The C
condition reads `a->identifier[i]` before the bounds test; that read
is of an in-bounds but possibly stale array slot and cannot make the
conjunction true on its own, so the order is immaterial.  The first
argument is fuel. -/
def normDedupInner (deps : List (Identifier × Scalar)) (id : Identifier) :
    Nat → Nat → Scalar → Nat × Scalar
  | 0, i, acc => (i, acc)
  | k + 1, i, acc =>
    if (deps.getD i (0, 0)).1 = id ∧ i < deps.length then
      normDedupInner deps id k (i + 1) (acc + (deps.getD i (0, 0)).2)
    else (i, acc)

/-- Outer loop of dg_bar.c `normalizeLinExpr`: walks the (supposedly
sorted) dependency tuples of `a`, merges runs of equal identifiers and
appends one tuple per run to the result (`ret`).  The first argument
is fuel. -/
def normDedupOuter (deps : List (Identifier × Scalar)) :
    Nat → Nat → List (Identifier × Scalar) → List (Identifier × Scalar)
  | 0, _, ret => ret
  | k + 1, i, ret =>
    if i < deps.length then
      let id := (deps.getD i (0, 0)).1
      let r := normDedupInner deps id (deps.length + 1) (i + 1) (deps.getD i (0, 0)).2
      normDedupOuter deps k r.1 (ret ++ [(id, r.2)])
    else ret

/-- dg_bar.c `normalizeLinExpr(a)` at the memory-layout level, with
`a` given as the buffer index `aIdx` inside the global `LinState`.
The steps follow the C body in order: `ret = newLinExpr()`;
`mergesortLinExpr(a, 0, a->ndep, ret)`; `ret->ndep = 0`;
`ret->value = a->value`; the deduplication loop writing into `ret`;
finally `*a = *ret`.  The loop only reads `a` and only writes `ret`,
and `ret` is a fresh entry distinct from `a`, so its tuple writes are
modelled by the batch update with `normDedupOuter`. -/
def normalizeLinExpr (s : LinState) (aIdx : Nat) : LinState :=
  let r := newLinExpr s
  let s1 := r.1
  let retIdx := r.2
  let ndep := (structAt s1.buf aIdx).deps.length
  let buf1 := mergesortLinExpr s1.buf aIdx 0 ndep retIdx
  let buf2 := buf1.set retIdx { structAt buf1 retIdx with deps := [] }
  let buf3 := buf2.set retIdx { structAt buf2 retIdx with value := (structAt buf2 aIdx).value }
  let retDeps := normDedupOuter (structAt buf3 aIdx).deps
    (structAt buf3 aIdx).deps.length 0 []
  let buf4 := buf3.set retIdx { structAt buf3 retIdx with deps := retDeps }
  let buf5 := buf4.set aIdx (structAt buf4 retIdx)
  { s1 with buf := buf5 }

/-- VEX IR value types (VEX `IRType`), restricted to the concrete
types named by the embedded code.  `Ity_INVALID` is a sentinel, not a
type of a value, and is not modelled. -/
inductive IRType where
  | I1 | I8 | I16 | I32 | I64 | I128
  | F16 | F32 | F64 | F128
  | D32 | D64 | D128
  | V128 | V256
deriving DecidableEq

/-- VEX IR constants (VEX `IRConst`), with the tags handled by the
embedded code.  Floating-point payloads are modelled by `ℚ`, the
bit-pattern constants (`F64i`, `F32i`) and integer payloads by `Nat`. -/
inductive IRConst where
  | F64c (v : ℚ) | F64i (v : Nat) | F32c (v : ℚ) | F32i (v : Nat)
  | U1 (v : Nat) | U8 (v : Nat) | U16 (v : Nat) | U32 (v : Nat) | U64 (v : Nat)
  | U128 (v : Nat) | V128c (v : Nat) | V256c (v : Nat)
deriving DecidableEq

/-- VEX IR operations (VEX `IROp`) named by the embedded parts of
nl_main.c and dg_bar.c.  Any operation outside this set falls through
the same default branches as an unlisted operation would in C, so the
restriction loses no behaviour relevant to the embedded code. -/
inductive IROp where
  | AddF64 | SubF64 | MulF64 | DivF64
  | AddF32 | SubF32 | MulF32 | DivF32
  | SqrtF64 | SqrtF32
  | NegF64 | NegF32 | AbsF64 | AbsF32
  | CmpF64 | CmpF32 | I32to1
  | ReinterpF64asI64 | ReinterpI64asF64 | ReinterpF32asI32 | ReinterpI32asF32
  | I8Uto64 | I16Uto64 | I32Uto64 | I64to8 | I64to16 | I64to32
  | And32 | And64 | AndV128 | AndV256
  | Or32 | Or64 | OrV128 | OrV256
  | Xor32 | Xor64 | XorV128 | XorV256
  | I32HLto64 | I64HLtoV128 | V128to64 | V128HIto64
  | V256to64_0 | V256to64_1 | V256to64_2 | V256to64_3 | I64x4toV256
deriving DecidableEq

/-- VEX IR expression trees (VEX `IRExpr`).  `CCall` models
`mkIRExprCCall` with the four-argument vectors used by the embedded
code.  A C `IRExpr*` that may be NULL is modelled as `Option IRExpr`. -/
inductive IRExpr where
  | Const (con : IRConst)
  | RdTmp (tmp : Nat)
  | Get (offset : Int) (ty : IRType)
  | GetI (base : Int) (elemTy : IRType) (nElems : Nat) (ix : IRExpr) (bias : Int)
  | Unop (op : IROp) (arg : IRExpr)
  | Binop (op : IROp) (arg1 arg2 : IRExpr)
  | Triop (op : IROp) (arg1 arg2 arg3 : IRExpr)
  | Qop (op : IROp) (arg1 arg2 arg3 arg4 : IRExpr)
  | ITE (cond iftrue iffalse : IRExpr)
  | Load (ty : IRType) (addr : IRExpr)
  | CCall (fname : String) (retty : IRType) (arg1 arg2 arg3 arg4 : IRExpr)
deriving DecidableEq

/-- Statements that the nl_main.c instrumentation appends to the
output superblock: shadow writes of temporaries, registers and
register arrays, and the two kinds of dirty helper calls
(`unsafeIRDirty_1_N` returning into a temporary for the load helpers,
`unsafeIRDirty_0_N` with an optional guard for the store helpers). -/
inductive Stmt where
  | WrTmpS (tmp : Nat) (data : IRExpr)
  | PutS (offset : Int) (data : IRExpr)
  | PutIS (base : Int) (elemTy : IRType) (nElems : Nat) (ix : IRExpr) (bias : Int)
      (data : IRExpr)
  | DirtyLoadS (dst : Nat) (fname : String) (addr : IRExpr)
  | DirtyStoreS (fname : String) (addr : IRExpr) (data : IRExpr) (guard : Option IRExpr)
deriving DecidableEq

/-- Output superblock under construction (the parts of VEX `IRSB`
touched by the embedding): the type environment of temporaries and the
list of appended statements. -/
structure SB where
  tyenv : List IRType
  stmts : List Stmt
deriving DecidableEq

/-- VEX `newIRTemp`: allocate a fresh temporary of the given type;
its index is the previous number of temporaries. -/
def newIRTemp (sb : SB) (ty : IRType) : Nat × SB :=
  (sb.tyenv.length, { tyenv := sb.tyenv ++ [ty], stmts := sb.stmts })

/-- VEX `addStmtToIRSB`. -/
def addStmt (sb : SB) (st : Stmt) : SB :=
  { tyenv := sb.tyenv, stmts := sb.stmts ++ [st] }

/-- nl_main.c `DiffEnv`: shadow offset for temporaries and the shadow
offset for guest registers (`layout->total_sizeB`).  The output
superblock, reached through a pointer in the C struct, is threaded
explicitly as an `SB` value. -/
structure DiffEnv where
  t_offset : Nat
  gs_offset : Int
deriving DecidableEq

/-- nl_main.c `canConvertToI64`: whether a type can be reinterpreted
as an 8-byte integer for the shadow-memory helpers.  (On the sentinel
`Ity_INVALID` the C function asserts and aborts; that sentinel is not
a value type and is not modelled.) -/
def canConvertToI64 : IRType → Bool
  | .I8 => true
  | .I16 => true
  | .I32 => true
  | .I64 => true
  | .F32 => true
  | .F64 => true
  | _ => false

/-- VEX `sizeofIRType` in bytes.  VEX panics on `Ity_I1`; the embedded
call sites only query sizes of types accepted by `canConvertToI64`,
so 0 is used as the stand-in for that unreachable case. -/
def sizeofIRType : IRType → Nat
  | .I1 => 0
  | .I8 => 1
  | .I16 => 2
  | .I32 => 4
  | .I64 => 8
  | .I128 => 16
  | .F16 => 2
  | .F32 => 4
  | .F64 => 8
  | .F128 => 16
  | .D32 => 4
  | .D64 => 8
  | .D128 => 16
  | .V128 => 16
  | .V256 => 32

/-- nl_main.c `convertToInteger`: reinterpret an expression of the
given type as an 8-byte integer.  The C default branch asserts and
aborts; it is unreachable because every caller first checks
`canConvertToI64`, and the argument is returned unchanged as the
stand-in. -/
def convertToInteger (expr : IRExpr) (ty : IRType) : IRExpr :=
  match ty with
  | .F32 => .Unop .I32Uto64 (.Unop .ReinterpF32asI32 expr)
  | .F64 => .Unop .ReinterpF64asI64 expr
  | .I8 => .Unop .I8Uto64 expr
  | .I16 => .Unop .I16Uto64 expr
  | .I32 => .Unop .I32Uto64 expr
  | .I64 => expr
  | _ => expr

/-- nl_main.c `convertFromInteger`: reinterpret an 8-byte integer
expression as the given type.  The C switch has no default branch
(falling off the end is unreachable for the guarded callers); the
argument is returned unchanged as the stand-in. -/
def convertFromInteger (expr : IRExpr) (ty : IRType) : IRExpr :=
  match ty with
  | .F32 => .Unop .ReinterpI32asF32 expr
  | .F64 => .Unop .ReinterpI64asF64 expr
  | .I8 => .Unop .I64to8 expr
  | .I16 => .Unop .I64to16 expr
  | .I32 => .Unop .I64to32 expr
  | .I64 => expr
  | _ => expr

/-- Name of the shadow-memory load helper selected by operand size in
the `Iex_Load` and `Ist_LoadG` handlers of nl_main.c; the C default
branch asserts (unreachable after `canConvertToI64`). -/
def nlLoadFname (size : Nat) : String :=
  if size = 1 then "nl_Load_diff1"
  else if size = 2 then "nl_Load_diff2"
  else if size = 4 then "nl_Load_diff4"
  else if size = 8 then "nl_Load_diff8"
  else "unreachable"

/-- Name of the shadow-memory store helper selected by operand size in
the `Ist_Store`/`Ist_StoreG` handler of nl_main.c. -/
def nlStoreFname (size : Nat) : String :=
  if size = 1 then "nl_Store_diff1"
  else if size = 2 then "nl_Store_diff2"
  else if size = 4 then "nl_Store_diff4"
  else if size = 8 then "nl_Store_diff8"
  else "unreachable"

/-- Type of an `IRConst` (VEX `typeOfIRConst`). -/
def typeOfIRConst : IRConst → IRType
  | .F64c _ => .F64
  | .F64i _ => .F64
  | .F32c _ => .F32
  | .F32i _ => .F32
  | .U1 _ => .I1
  | .U8 _ => .I8
  | .U16 _ => .I16
  | .U32 _ => .I32
  | .U64 _ => .I64
  | .U128 _ => .I128
  | .V128c _ => .V128
  | .V256c _ => .V256

/-- Result type of each modelled `IROp` (from VEX `typeOfPrimop`). -/
def iropResultType : IROp → IRType
  | .AddF64 => .F64
  | .SubF64 => .F64
  | .MulF64 => .F64
  | .DivF64 => .F64
  | .AddF32 => .F32
  | .SubF32 => .F32
  | .MulF32 => .F32
  | .DivF32 => .F32
  | .SqrtF64 => .F64
  | .SqrtF32 => .F32
  | .NegF64 => .F64
  | .NegF32 => .F32
  | .AbsF64 => .F64
  | .AbsF32 => .F32
  | .CmpF64 => .I32
  | .CmpF32 => .I32
  | .I32to1 => .I1
  | .ReinterpF64asI64 => .I64
  | .ReinterpI64asF64 => .F64
  | .ReinterpF32asI32 => .I32
  | .ReinterpI32asF32 => .F32
  | .I8Uto64 => .I64
  | .I16Uto64 => .I64
  | .I32Uto64 => .I64
  | .I64to8 => .I8
  | .I64to16 => .I16
  | .I64to32 => .I32
  | .And32 => .I32
  | .And64 => .I64
  | .AndV128 => .V128
  | .AndV256 => .V256
  | .Or32 => .I32
  | .Or64 => .I64
  | .OrV128 => .V128
  | .OrV256 => .V256
  | .Xor32 => .I32
  | .Xor64 => .I64
  | .XorV128 => .V128
  | .XorV256 => .V256
  | .I32HLto64 => .I64
  | .I64HLtoV128 => .V128
  | .V128to64 => .I64
  | .V128HIto64 => .I64
  | .V256to64_0 => .I64
  | .V256to64_1 => .I64
  | .V256to64_2 => .I64
  | .V256to64_3 => .I64
  | .I64x4toV256 => .V256

/-- VEX `typeOfIRExpr` for the modelled fragment. -/
def typeOfIRExpr (tyenv : List IRType) : IRExpr → IRType
  | .Const con => typeOfIRConst con
  | .RdTmp tmp => tyenv.getD tmp .I64
  | .Get _ ty => ty
  | .GetI _ elemTy _ _ _ => elemTy
  | .Unop op _ => iropResultType op
  | .Binop op _ _ => iropResultType op
  | .Triop op _ _ _ => iropResultType op
  | .Qop op _ _ _ _ => iropResultType op
  | .ITE _ iftrue _ => typeOfIRExpr tyenv iftrue
  | .Load ty _ => ty
  | .CCall _ retty _ _ _ _ => retty

/-- nl_main.c `differentiate_expr`: recursive symbolic differentiation
of an IR expression.  NULL results are `none`; the statements that the
`Iex_Load` case appends to `diffenv.sb_out` are threaded through the
`SB` component.  The debug prints in the `Iex_ITE` branch are I/O only
and are not modelled. -/
def differentiate_expr (env : DiffEnv) (e : IRExpr) (sb : SB) : Option IRExpr × SB :=
  match e with
  | .Triop op arg1 arg2 arg3 =>
    let r2 := differentiate_expr env arg2 sb
    let r3 := differentiate_expr env arg3 r2.2
    match r2.1, r3.1 with
    | some d2, some d3 =>
      let res : Option IRExpr :=
        match op with
        | .AddF64 => some (.Triop .AddF64 arg1 d2 d3)
        | .AddF32 => some (.Triop .AddF32 arg1 d2 d3)
        | .SubF64 => some (.Triop .SubF64 arg1 d2 d3)
        | .SubF32 => some (.Triop .SubF32 arg1 d2 d3)
        | .MulF64 => some (.Triop .AddF64 arg1
            (.Triop .MulF64 arg1 d2 arg3) (.Triop .MulF64 arg1 d3 arg2))
        | .MulF32 => some (.Triop .AddF32 arg1
            (.Triop .MulF32 arg1 d2 arg3) (.Triop .MulF32 arg1 d3 arg2))
        | .DivF64 => some (.Triop .DivF64 arg1
            (.Triop .SubF64 arg1
              (.Triop .MulF64 arg1 d2 arg3) (.Triop .MulF64 arg1 d3 arg2))
            (.Triop .MulF64 arg1 arg3 arg3))
        | .DivF32 => some (.Triop .DivF32 arg1
            (.Triop .SubF32 arg1
              (.Triop .MulF32 arg1 d2 arg3) (.Triop .MulF32 arg1 d3 arg2))
            (.Triop .MulF32 arg1 arg3 arg3))
        | _ => none
      (res, r3.2)
    | _, _ => (none, r3.2)
  | .Binop op arg1 arg2 =>
    let r2 := differentiate_expr env arg2 sb
    match r2.1 with
    | none => (none, r2.2)
    | some d2 =>
      let res : Option IRExpr :=
        match op with
        | .SqrtF64 => some (.Triop .DivF64 arg1 d2
            (.Triop .MulF64 arg1 (.Const (.F64c 2)) (.Binop .SqrtF64 arg1 arg2)))
        | .SqrtF32 => some (.Triop .DivF32 arg1 d2
            (.Triop .MulF32 arg1 (.Const (.F32c 2)) (.Binop .SqrtF32 arg1 arg2)))
        | _ => none
      (res, r2.2)
  | .Unop op arg =>
    let r := differentiate_expr env arg sb
    match r.1 with
    | none => (none, r.2)
    | some d =>
      let res : Option IRExpr :=
        match op with
        | .NegF64 => some (.Unop .NegF64 d)
        | .NegF32 => some (.Unop .NegF32 d)
        | .AbsF64 => some (.ITE
            (.Unop .I32to1 (.Binop .CmpF64 arg (.Const (.F64c 0))))
            (.Unop .NegF64 d) d)
        | .AbsF32 => some (.ITE
            (.Unop .I32to1 (.Binop .CmpF32 arg (.Const (.F32c 0))))
            (.Unop .NegF32 d) d)
        | _ => none
      (res, r.2)
  | .Const con =>
    let res : Option IRExpr :=
      match con with
      | .F64c _ => some (.Const (.F64c 0))
      | .F64i _ => some (.Const (.F64i 0))
      | .F32c _ => some (.Const (.F32c 0))
      | .F32i _ => some (.Const (.F32i 0))
      | .U1 _ => some (.Const (.U1 0))
      | .U8 _ => some (.Const (.U8 0))
      | .U16 _ => some (.Const (.U16 0))
      | .U32 _ => some (.Const (.U32 0))
      | .U64 _ => some (.Const (.U64 0))
      | .U128 _ => some (.Const (.U128 0))
      | .V128c _ => some (.Const (.V128c 0))
      | .V256c _ => some (.Const (.V256c 0))
    (res, sb)
  | .ITE cond iftrue iffalse =>
    let rt := differentiate_expr env iftrue sb
    let rf := differentiate_expr env iffalse rt.2
    match rt.1, rf.1 with
    | some dtrue, some dfalse => (some (.ITE cond dtrue dfalse), rf.2)
    | _, _ => (none, rf.2)
  | .RdTmp tmp => (some (.RdTmp (tmp + env.t_offset)), sb)
  | .Get offset ty => (some (.Get (offset + env.gs_offset) ty), sb)
  | .GetI base elemTy nElems ix bias =>
    (some (.GetI (base + env.gs_offset) elemTy nElems ix (bias + env.gs_offset)), sb)
  | .Load ty addr =>
    if canConvertToI64 ty then
      let a1 := newIRTemp sb .I64
      let sb2 := addStmt a1.2 (.DirtyLoadS a1.1 (nlLoadFname (sizeofIRType ty)) addr)
      let a2 := newIRTemp sb2 ty
      let sb4 := addStmt a2.2 (.WrTmpS a2.1 (convertFromInteger (.RdTmp a1.1) ty))
      (some (.RdTmp a2.1), sb4)
    else (none, sb)
  | _ => (none, sb)

/-- nl_main.c `differentiate_or_warn`: differentiate, and print a
warning when the result is NULL and the `warn` flag is set.  The
printing side effect is reported as the boolean component. -/
def differentiate_or_warn (env : DiffEnv) (expr : IRExpr) (sb : SB) (warn : Bool) :
    (Option IRExpr × SB) × Bool :=
  let r := differentiate_expr env expr sb
  (r, r.1.isNone && warn)

/-- Original statements of the input superblock, as dispatched on by
the statement loop of nl_main.c `nl_instrument`.  Only the fields the
instrumentation reads are carried; endianness fields and the `LoadG`
conversion tag (which is only the subject of `tl_assert`s that abort
the process when violated) are not modelled. -/
inductive InStmt where
  | WrTmp (tmp : Nat) (data : IRExpr)
  | Put (offset : Int) (data : IRExpr)
  | PutI (base : Int) (elemTy : IRType) (nElems : Nat) (ix : IRExpr) (bias : Int)
      (data : IRExpr)
  | Store (addr data : IRExpr)
  | StoreG (addr data guard : IRExpr)
  | LoadG (dst : Nat) (addr alt guard : IRExpr)
  | CAS (oldLo : Nat) (oldHi : Option Nat)
  | LLSC
  | Dirty
  | NoOp
  | IMark
  | AbiHint
  | Exit
  | MBE
deriving DecidableEq

/-- Statement dispatch of nl_main.c `nl_instrument` (the body of its
`for` loop over `sb_in->stmts`): which shadow statements are appended
for one original statement, and whether the unsupported-expression
warning was printed.  `tyIn` is `sb_in->tyenv`.  The unconditional
copy of the original statement to `sb_out` at the end of the loop body
is common to all paths and is not part of the instrumentation
modelled here; likewise the plain debug prints for Store/CAS/LLSC/
Dirty statements are I/O only. -/
def nl_instrument_stmt (env : DiffEnv) (tyIn : List IRType) (sb : SB) (st : InStmt) :
    SB × Bool :=
  match st with
  | .WrTmp tmp data =>
    let ty := tyIn.getD tmp .I64
    let r := differentiate_or_warn env data sb (ty == .F64 || ty == .F32)
    match r.1.1 with
    | some e => (addStmt r.1.2 (.WrTmpS (tmp + env.t_offset) e), r.2)
    | none => (r.1.2, r.2)
  | .Put offset data =>
    let ty := typeOfIRExpr tyIn data
    let r := differentiate_or_warn env data sb (ty == .F64 || ty == .F32)
    match r.1.1 with
    | some e => (addStmt r.1.2 (.PutS (offset + env.gs_offset) e), r.2)
    | none => (r.1.2, r.2)
  | .PutI base elemTy nElems ix bias data =>
    let ty := typeOfIRExpr tyIn data
    let r := differentiate_or_warn env data sb (ty == .F64 || ty == .F32)
    match r.1.1 with
    | some e => (addStmt r.1.2
        (.PutIS (base + env.gs_offset) elemTy nElems ix (bias + env.gs_offset) e), r.2)
    | none => (r.1.2, r.2)
  | .Store addr data =>
    let ty := typeOfIRExpr tyIn data
    if canConvertToI64 ty then
      let r := differentiate_or_warn env data sb (ty == .F64 || ty == .F32)
      match r.1.1 with
      | some e => (addStmt r.1.2
          (.DirtyStoreS (nlStoreFname (sizeofIRType ty)) addr (convertToInteger e ty) none),
          r.2)
      | none => (r.1.2, r.2)
    else (sb, false)
  | .StoreG addr data guard =>
    let ty := typeOfIRExpr tyIn data
    if canConvertToI64 ty then
      let r := differentiate_or_warn env data sb (ty == .F64 || ty == .F32)
      match r.1.1 with
      | some e => (addStmt r.1.2
          (.DirtyStoreS (nlStoreFname (sizeofIRType ty)) addr (convertToInteger e ty)
            (some guard)), r.2)
      | none => (r.1.2, r.2)
    else (sb, false)
  | .LoadG dst addr alt guard =>
    let ty := tyIn.getD dst .I64
    if canConvertToI64 ty then
      let r := differentiate_or_warn env alt sb (ty == .F64 || ty == .F32)
      match r.1.1 with
      | some dalt =>
        let a1 := newIRTemp r.1.2 .I64
        let sb2 := addStmt a1.2 (.DirtyLoadS a1.1 (nlLoadFname (sizeofIRType ty)) addr)
        let a2 := newIRTemp sb2 ty
        let sb3 := addStmt a2.2 (.WrTmpS a2.1 (convertFromInteger (.RdTmp a1.1) ty))
        (addStmt sb3 (.WrTmpS (dst + env.t_offset) (.ITE guard (.RdTmp a2.1) dalt)), r.2)
      | none => (r.1.2, r.2)
    else (sb, false)
  | .CAS oldLo oldHi =>
    let sb1 := addStmt sb (.WrTmpS (oldLo + env.t_offset) (.Const (.F64c 0)))
    match oldHi with
    | some hi => (addStmt sb1 (.WrTmpS (hi + env.t_offset) (.Const (.F64c 0))), false)
    | none => (sb1, false)
  | _ => (sb, false)

/-- Runtime values for the evaluator of generated derivative
expressions: exact floating-point payloads (`q`) and integer bit
payloads (`b`). -/
inductive V where
  | q (x : ℚ)
  | b (n : Nat)
deriving DecidableEq

/-- Result of `Iop_CmpF64`/`Iop_CmpF32` on ordered (non-NaN) operands,
in the VEX `IRCmpF64Result` encoding: Ircr_LT = 0x01, Ircr_EQ = 0x40,
Ircr_GT = 0x00 (compare the code comment at the `Iop_AbsF64` rule of
nl_main.c: for arg ≥ 0 the result is Ircr_GT or Ircr_EQ, whose low bit
is 0). -/
def ircrCmp (x y : ℚ) : Nat :=
  if x < y then 1 else if x = y then 64 else 0

/-- Evaluator for the fragment of generated expressions needed to
interpret the absolute-value derivative: temporaries, floating-point
constants, negation, `CmpF64`/`CmpF32`, `32to1` (low bit) and `ITE`
on a 1-bit condition.  Other nodes evaluate to `none`. -/
def evalE (rho : Nat → Option V) : IRExpr → Option V
  | .RdTmp tmp => rho tmp
  | .Const (.F64c v) => some (.q v)
  | .Const (.F32c v) => some (.q v)
  | .Const (.U1 n) => some (.b n)
  | .Const (.U8 n) => some (.b n)
  | .Const (.U16 n) => some (.b n)
  | .Const (.U32 n) => some (.b n)
  | .Const (.U64 n) => some (.b n)
  | .Unop .NegF64 a =>
    match evalE rho a with
    | some (.q x) => some (.q (-x))
    | _ => none
  | .Unop .NegF32 a =>
    match evalE rho a with
    | some (.q x) => some (.q (-x))
    | _ => none
  | .Unop .I32to1 a =>
    match evalE rho a with
    | some (.b n) => some (.b (n % 2))
    | _ => none
  | .Binop .CmpF64 a1 a2 =>
    match evalE rho a1, evalE rho a2 with
    | some (.q x), some (.q y) => some (.b (ircrCmp x y))
    | _, _ => none
  | .Binop .CmpF32 a1 a2 =>
    match evalE rho a1, evalE rho a2 with
    | some (.q x), some (.q y) => some (.b (ircrCmp x y))
    | _, _ => none
  | .ITE cond iftrue iffalse =>
    match evalE rho cond with
    | some (.b 1) => evalE rho iftrue
    | some (.b 0) => evalE rho iffalse
    | _ => none
  | _ => none

/-- The three logical operations covered by the DG_HANDLE_LOGICAL
macro of dg_bar.c. -/
inductive LogOp where
  | And
  | Or
  | Xor
deriving DecidableEq

/-- The four operand widths covered by the DG_HANDLE_LOGICAL macro. -/
inductive LogWidth where
  | W32
  | W64
  | WV128
  | WV256
deriving DecidableEq

/-- Lower-case token of a logical operation, as pasted by the macro
into the helper name. -/
def logOpToken : LogOp → String
  | .And => "and"
  | .Or => "or"
  | .Xor => "xor"

/-- Helper-function name `"dg_logical_" #op "64"` built by the
DG_HANDLE_LOGICAL macro of dg_bar.c. -/
def dgLogicalFname (op : LogOp) : String := "dg_logical_" ++ logOpToken op ++ "64"

/-- Shallow embedding of the four switch cases generated by the
DG_HANDLE_LOGICAL macro of dg_bar.c (lines 336-399) for one logical
operation.  The parameters `d1` and `d2` stand for
`differentiate_expr(arg1, diffenv)` and `differentiate_expr(arg2,
diffenv)` computed by the surrounding code; the `res[i]` chunks of the
V128 and V256 cases appear here as `res0`, ..., `res3` (`res0` the low
chunk). -/
def dgHandleLogical (op : LogOp) (w : LogWidth) (arg1 d1 arg2 d2 : IRExpr) : IRExpr :=
  match w with
  | .W32 =>
    let zero32 : IRExpr := .Const (.U32 0)
    let res : IRExpr := .CCall (dgLogicalFname op) .I64
      (.Binop .I32HLto64 zero32 arg1) (.Binop .I32HLto64 zero32 d1)
      (.Binop .I32HLto64 zero32 arg2) (.Binop .I32HLto64 zero32 d2)
    .Unop .I64to32 res
  | .W64 => .CCall (dgLogicalFname op) .I64 arg1 d1 arg2 d2
  | .WV128 =>
    let res0 : IRExpr := .CCall (dgLogicalFname op) .I64
      (.Unop .V128to64 arg1) (.Unop .V128to64 d1)
      (.Unop .V128to64 arg2) (.Unop .V128to64 d2)
    let res1 : IRExpr := .CCall (dgLogicalFname op) .I64
      (.Unop .V128HIto64 arg1) (.Unop .V128HIto64 d1)
      (.Unop .V128HIto64 arg2) (.Unop .V128HIto64 d2)
    .Binop .I64HLtoV128 res1 res0
  | .WV256 =>
    let res0 : IRExpr := .CCall (dgLogicalFname op) .I64
      (.Unop .V256to64_0 arg1) (.Unop .V256to64_0 d1)
      (.Unop .V256to64_0 arg2) (.Unop .V256to64_0 d2)
    let res1 : IRExpr := .CCall (dgLogicalFname op) .I64
      (.Unop .V256to64_1 arg1) (.Unop .V256to64_1 d1)
      (.Unop .V256to64_1 arg2) (.Unop .V256to64_1 d2)
    let res2 : IRExpr := .CCall (dgLogicalFname op) .I64
      (.Unop .V256to64_2 arg1) (.Unop .V256to64_2 d1)
      (.Unop .V256to64_2 arg2) (.Unop .V256to64_2 d2)
    let res3 : IRExpr := .CCall (dgLogicalFname op) .I64
      (.Unop .V256to64_3 arg1) (.Unop .V256to64_3 d1)
      (.Unop .V256to64_3 arg2) (.Unop .V256to64_3 d2)
    .Qop .I64x4toV256 res3 res2 res1 res0

/-- One 64-bit chunk of a wide logical operation, routed through the
64-bit helper: the chunk selector `sel` is applied to both operands
and both operand derivatives, and the four selections are passed to
`dg_logical_<op>64`.  This is the uniform chunk shape the wide cases
of `dgHandleLogical` are proved to consist of. -/
def chunkCall (op : LogOp) (sel : IROp) (arg1 d1 arg2 d2 : IRExpr) : IRExpr :=
  .CCall (dgLogicalFname op) .I64
    (.Unop sel arg1) (.Unop sel d1) (.Unop sel arg2) (.Unop sel d2)

/-- Statements that `differentiate_expr` itself may append to the
output block: dirty load-helper calls and writes into temporaries at
or above a given temporary count (the fresh ones it allocates). -/
def IsFreshHelperStmt (n : Nat) : Stmt → Prop
  | .WrTmpS t _ => n ≤ t
  | .DirtyLoadS t _ _ => n ≤ t
  | _ => False

/-- A shadow statement writing temporary `n` (either directly or as
the destination of a dirty load-helper call). -/
def writesTempN (n : Nat) : Stmt → Prop
  | .WrTmpS t _ => t = n
  | .DirtyLoadS t _ _ => t = n
  | _ => False

/-- A shadow statement writing the guest-state offset `o`. -/
def isPutAt (o : Int) : Stmt → Prop
  | .PutS off _ => off = o
  | _ => False

/-- A shadow statement writing into the register array at base `b`. -/
def isPutIAt (b : Int) : Stmt → Prop
  | .PutIS base _ _ _ _ _ => base = b
  | _ => False

/-- A dirty call to one of the shadow-memory store helpers. -/
def isStoreHelperCall : Stmt → Prop
  | .DirtyStoreS _ _ _ _ => True
  | _ => False

/-- C1: dg_bar.c `divLinExpr` does not follow the quotient rule the
spec states.  At a = (value 1, deps [(id 1, jac 1)]) and
b = (value 2, no deps), the claim predicts the dependency of `a`
scaled by 1/b.value = 1/2, but the code scales it by -1/b.value and
returns jacobian -(1/2); the value field is a.value/b.value as
claimed.  The IR-level rule for Iop_DivF64 in `differentiate_expr`,
by contrast, does emit (d2*arg3 - d3*arg2)/(arg3*arg3) exactly as the
claim states, shown here at the concrete triop
DivF64(rounding, t0, t1) with shadow offset 2. -/
theorem divLinExpr_quotient_rule_sign_flipped :
    divLinExpr ⟨1, [(1, 1)]⟩ ⟨2, []⟩ = ⟨1/2, [(1, -(1/2))]⟩ ∧
    ((-(1/2) : ℚ) ≠ 1/2) ∧
    differentiate_expr ⟨2, 0⟩
      (.Triop .DivF64 (.Const (.U32 0)) (.RdTmp 0) (.RdTmp 1)) ⟨[], []⟩ =
      (some (.Triop .DivF64 (.Const (.U32 0))
        (.Triop .SubF64 (.Const (.U32 0))
          (.Triop .MulF64 (.Const (.U32 0)) (.RdTmp 2) (.RdTmp 1))
          (.Triop .MulF64 (.Const (.U32 0)) (.RdTmp 3) (.RdTmp 0)))
        (.Triop .MulF64 (.Const (.U32 0)) (.RdTmp 1) (.RdTmp 1))), ⟨[], []⟩) := by
  refine ⟨?_, by norm_num, rfl⟩
  simp [divLinExpr, linearCombinationOfDependencies]
  norm_num

/-- C6: recording with both partials exactly zero and both operand
indices 0 returns index 0 and leaves the tape unchanged, while the
non-pruning variant always appends an entry and returns the fresh
nonzero sequential index. -/
theorem tape_activity_pruning :
    (∀ t : Tape, tapeAddStatement t 0 0 0 0 = (t, 0)) ∧
    (∀ (t : Tape) (i1 i2 : Nat) (d1 d2 : Scalar),
      (tapeAddStatement_noActivityAnalysis t i1 i2 d1 d2).1.entries =
        t.entries ++ [⟨i1, i2, d1, d2⟩] ∧
      (tapeAddStatement_noActivityAnalysis t i1 i2 d1 d2).2 = t.entries.length + 1 ∧
      (tapeAddStatement_noActivityAnalysis t i1 i2 d1 d2).2 ≠ 0) := by
  constructor
  · intro t
    simp [tapeAddStatement]
  · intro t i1 i2 d1 d2
    exact ⟨rfl, rfl, by simp [tapeAddStatement_noActivityAnalysis]⟩

/-- C8: for logical And/Or/Xor on 128- and 256-bit operands, the
derivative splits each operand and each operand derivative into
64-bit chunks (two for V128 via V128to64/V128HIto64, four for V256
via V256to64_0..3), routes every chunk through the same 64-bit helper
dg_logical_<op>64 that the 64-bit case calls directly, and reassembles
the helper results in chunk order into the original width. -/
theorem wide_logical_ops_chunked_through_64bit_helper :
    ∀ (op : LogOp) (arg1 d1 arg2 d2 : IRExpr),
      dgHandleLogical op .WV128 arg1 d1 arg2 d2 =
        .Binop .I64HLtoV128 (chunkCall op .V128HIto64 arg1 d1 arg2 d2)
          (chunkCall op .V128to64 arg1 d1 arg2 d2) ∧
      dgHandleLogical op .WV256 arg1 d1 arg2 d2 =
        .Qop .I64x4toV256
          (chunkCall op .V256to64_3 arg1 d1 arg2 d2)
          (chunkCall op .V256to64_2 arg1 d1 arg2 d2)
          (chunkCall op .V256to64_1 arg1 d1 arg2 d2)
          (chunkCall op .V256to64_0 arg1 d1 arg2 d2) ∧
      dgHandleLogical op .W64 arg1 d1 arg2 d2 =
        .CCall (dgLogicalFname op) .I64 arg1 d1 arg2 d2 ∧
      ∀ sel : IROp, chunkCall op sel arg1 d1 arg2 d2 =
        .CCall (dgLogicalFname op) .I64
          (.Unop sel arg1) (.Unop sel d1) (.Unop sel arg2) (.Unop sel d2) := by
  intro op arg1 d1 arg2 d2
  exact ⟨rfl, rfl, rfl, fun _ => rfl⟩

/-- Closed form of the identifier counter state: after n calls it
holds (1 + n) mod 2^64. -/
lemma newidStateAfter_eq (n : Nat) : newidStateAfter n = (1 + n) % 2 ^ 64 := by
  induction n with
  | zero =>
    show (1 : Nat) = (1 + 0) % 2 ^ 64
    norm_num
  | succ n ih =>
    show (newidStateAfter n + 1) % 2 ^ 64 = (1 + (n + 1)) % 2 ^ 64
    rw [ih]
    have hW : (2 : Nat) ^ 64 = 18446744073709551616 := by norm_num
    rw [hW]
    omega

/-- C9 counterexample: the identifier counter is a 64-bit unsigned
integer, so the 2^64-th call to newid returns 0 — the claim that no
call ever returns 0 fails there. -/
theorem newid_wraps_to_zero_at_2_pow_64 : kthNewid (2 ^ 64) = 0 := by
  show (newidStateAfter (2 ^ 64 - 1)) = 0
  rw [newidStateAfter_eq]
  have hW : (2 : Nat) ^ 64 = 18446744073709551616 := by norm_num
  rw [hW]

/-- C9 (amended): the identifier counter starts at 1 and newid hands
out values sequentially, so for every k with 1 ≤ k < 2^64 the k-th
call returns k and in particular never 0; the counter wraps modulo
2^64, so this range restriction is exactly what 64-bit arithmetic
forces. -/
theorem newid_sequential_from_one_below_wrap :
    next_identifier_init = 1 ∧
    ∀ k : Nat, 1 ≤ k → k < 2 ^ 64 → kthNewid k = k ∧ kthNewid k ≠ 0 := by
  refine ⟨rfl, fun k h1 h2 => ?_⟩
  have h : kthNewid k = (1 + (k - 1)) % 2 ^ 64 := by
    show newidStateAfter (k - 1) = _
    exact newidStateAfter_eq (k - 1)
  have hW : (2 : Nat) ^ 64 = 18446744073709551616 := by norm_num
  rw [hW] at h h2
  constructor
  · rw [h]; omega
  · rw [h]; omega

/-- C9 witness: the amended statement at k = 5. -/
theorem newid_sequential_witness :
    kthNewid 5 = 5 ∧ kthNewid 5 ≠ 0 :=
  newid_sequential_from_one_below_wrap.2 5 (by decide) (by decide)

/-- C4: differentiating a memory load succeeds exactly for the types
accepted by canConvertToI64 (1/2/4/8-byte integers and 32/64-bit
floats); for these it appends the size-matched shadow-memory-load
helper call into a fresh 8-byte temporary and a write of a second
fresh temporary holding that result reinterpreted back to the original
type, and evaluates to a read of that temporary; for every other
loaded type it returns Unsupported with no statements appended. -/
theorem load_differentiation_supported_types :
    ∀ (env : DiffEnv) (sb : SB) (ty : IRType) (addr : IRExpr),
      (differentiate_expr env (.Load ty addr) sb =
        if canConvertToI64 ty then
          (some (.RdTmp (sb.tyenv.length + 1)),
            { tyenv := sb.tyenv ++ [.I64, ty]
              stmts := sb.stmts ++
                [.DirtyLoadS sb.tyenv.length (nlLoadFname (sizeofIRType ty)) addr,
                 .WrTmpS (sb.tyenv.length + 1)
                   (convertFromInteger (.RdTmp sb.tyenv.length) ty)] })
        else (none, sb)) ∧
      (canConvertToI64 ty = true ↔
        ty = .I8 ∨ ty = .I16 ∨ ty = .I32 ∨ ty = .I64 ∨ ty = .F32 ∨ ty = .F64) := by
  intro env sb ty addr
  constructor
  · cases hty : canConvertToI64 ty <;>
      simp [differentiate_expr, hty, newIRTemp, addStmt]
  · cases ty <;> simp [canConvertToI64]

/-- C5: differentiating a conditional-select expression differentiates
both branches (in order, threading the helper-statement state), yields
Unsupported iff either branch derivative is Unsupported, and otherwise
selects between the two branch derivatives with the unmodified
original condition. -/
theorem ite_differentiation_both_branches :
    ∀ (env : DiffEnv) (sb : SB) (cond iftrue iffalse : IRExpr)
      (dt : Option IRExpr) (sb1 : SB) (df : Option IRExpr) (sb2 : SB),
      differentiate_expr env iftrue sb = (dt, sb1) →
      differentiate_expr env iffalse sb1 = (df, sb2) →
      differentiate_expr env (.ITE cond iftrue iffalse) sb =
        ((match dt, df with
          | some a, some b => some (.ITE cond a b)
          | _, _ => none), sb2) := by
  intro env sb c t f dt sb1 df sb2 h1 h2
  simp only [differentiate_expr, h1, h2]
  cases dt <;> cases df <;> rfl

/-- C5 witness: a select of two temporaries differentiates to the
select of their shadows under the original condition, and a select
whose true branch is an unhandled operation is Unsupported. -/
theorem ite_differentiation_witness :
    differentiate_expr ⟨5, 0⟩ (.ITE (.RdTmp 2) (.RdTmp 0) (.RdTmp 1)) ⟨[], []⟩ =
      (some (.ITE (.RdTmp 2) (.RdTmp 5) (.RdTmp 6)), ⟨[], []⟩) ∧
    differentiate_expr ⟨5, 0⟩
      (.ITE (.RdTmp 2) (.Binop .And64 (.RdTmp 0) (.RdTmp 0)) (.RdTmp 1)) ⟨[], []⟩ =
      (none, ⟨[], []⟩) :=
  ⟨ite_differentiation_both_branches ⟨5, 0⟩ ⟨[], []⟩ (.RdTmp 2) (.RdTmp 0) (.RdTmp 1)
      (some (.RdTmp 5)) ⟨[], []⟩ (some (.RdTmp 6)) ⟨[], []⟩ rfl rfl,
   ite_differentiation_both_branches ⟨5, 0⟩ ⟨[], []⟩ (.RdTmp 2)
      (.Binop .And64 (.RdTmp 0) (.RdTmp 0)) (.RdTmp 1)
      none ⟨[], []⟩ (some (.RdTmp 6)) ⟨[], []⟩ rfl rfl⟩

/-- C7: when the buffer of linearized expressions is full
(n = maxn, with the allocation `buf` of length maxn), the next
`newLinExpr` grows the capacity to 2*n+1, preserves the first n
entries unchanged, increments the element count by exactly one, and
hands out entry n with `ndep = 0` (empty dependency list). -/
theorem newLinExpr_grows_and_preserves (s : LinState) (hfull : s.n = s.maxn)
    (hlen : s.buf.length = s.maxn) :
    (newLinExpr s).2 = s.n ∧
    (newLinExpr s).1.n = s.n + 1 ∧
    (newLinExpr s).1.maxn = 2 * s.n + 1 ∧
    (newLinExpr s).1.buf.length = 2 * s.n + 1 ∧
    (∀ i, i < s.n → (newLinExpr s).1.buf[i]? = s.buf[i]?) ∧
    ((newLinExpr s).1.buf[s.n]?).map LinExpr.deps = some [] := by
  have hlen' : s.buf.length = s.n := by rw [hlen, hfull]
  have htake : s.buf.take s.n = s.buf := by
    rw [← hlen']
    exact List.take_length s.buf
  unfold newLinExpr
  rw [if_pos hfull, htake]
  have hrep : 2 * s.n + 1 - s.n = s.n + 1 := by omega
  rw [hrep]
  have hlen1 : (s.buf ++ List.replicate (s.n + 1) mallocJunk).length = 2 * s.n + 1 := by
    simp [hlen']
    omega
  have hltn : s.n < (s.buf ++ List.replicate (s.n + 1) mallocJunk).length := by omega
  refine ⟨rfl, rfl, by rw [hfull], ?_, ?_, ?_⟩
  · simpa using hlen1
  · intro i hi
    have hne : s.n ≠ i := by omega
    show ((s.buf ++ List.replicate (s.n + 1) mallocJunk).set s.n _)[i]? = s.buf[i]?
    rw [List.getElem?_set_ne hne]
    exact List.getElem?_append_left (by omega)
  · rw [List.getElem?_set_eq_of_lt _ hltn]
    rfl

/-- C7 witness: growing a full one-entry buffer. -/
theorem newLinExpr_grows_witness :
    (newLinExpr ⟨1, 1, [⟨3, [(5, 7)]⟩]⟩).1.maxn = 2 * 1 + 1 ∧
    (newLinExpr ⟨1, 1, [⟨3, [(5, 7)]⟩]⟩).1.n = 1 + 1 ∧
    (newLinExpr ⟨1, 1, [⟨3, [(5, 7)]⟩]⟩).1.buf[0]? = some ⟨3, [(5, 7)]⟩ ∧
    ((newLinExpr ⟨1, 1, [⟨3, [(5, 7)]⟩]⟩).1.buf[1]?).map LinExpr.deps = some [] := by
  have h := newLinExpr_grows_and_preserves ⟨1, 1, [⟨3, [(5, 7)]⟩]⟩ rfl rfl
  exact ⟨h.2.2.1, h.2.1, (h.2.2.2.2.1 0 (by decide)).trans rfl, h.2.2.2.2.2⟩

/-- C10: `normalizeLinExpr` does not normalize a linearized expression
with two dependencies.  The buffer holds a = (value 5, deps
[(2, 10), (1, 20)]) at index 0 with spare capacity 3 (so `ret` is
allocated at index 1 without reallocation).  `mergesortLinExpr` moves
whole neighbouring `LinExpr` structs (`tmp[i] = a[from_m++]`,
`a[i] = tmp[i]`) instead of the (identifier, jacobian) tuples of `a`
that its documentation says it sorts, so `a` is overwritten with the
fresh junk struct; the final result at index 0 has an empty dependency
list and the junk value 0 instead of the claimed value 5 with the
tuples sorted to [(1, 20), (2, 10)]. -/
theorem normalizeLinExpr_clobbers_two_dep_expr :
    normalizeLinExpr ⟨1, 3, [⟨5, [(2, 10), (1, 20)]⟩, ⟨0, []⟩, ⟨0, []⟩]⟩ 0 =
      ⟨2, 3, [⟨0, []⟩, ⟨0, []⟩, ⟨5, [(2, 10), (1, 20)]⟩]⟩ ∧
    structAt (normalizeLinExpr ⟨1, 3, [⟨5, [(2, 10), (1, 20)]⟩, ⟨0, []⟩, ⟨0, []⟩]⟩ 0).buf 0 ≠
      ⟨5, [(1, 20), (2, 10)]⟩ := by
  constructor
  · norm_num [normalizeLinExpr, newLinExpr, mergesortLinExpr, mergesortLinExprFuel,
      msMergeLoop, msCopyLoop, normDedupOuter, normDedupInner, structAt, idAt, mallocJunk]
  · norm_num [normalizeLinExpr, newLinExpr, mergesortLinExpr, mergesortLinExprFuel,
      msMergeLoop, msCopyLoop, normDedupOuter, normDedupInner, structAt, idAt, mallocJunk]

/-- C2: for AbsF64(x) (and AbsF32(x)) with available operand
derivative d, the engine returns the conditional select
ITE(32to1(CmpF64(x, 0)), -d, d); under the VEX comparison-result
encoding this yields -d exactly when x is strictly less than zero and
+d otherwise, and in particular +d for x exactly equal to zero. -/
theorem abs_derivative_select :
    ∀ (env : DiffEnv) (sb sbd : SB) (arg d : IRExpr),
      differentiate_expr env arg sb = (some d, sbd) →
      (differentiate_expr env (.Unop .AbsF64 arg) sb =
        (some (.ITE (.Unop .I32to1 (.Binop .CmpF64 arg (.Const (.F64c 0))))
          (.Unop .NegF64 d) d), sbd)) ∧
      (differentiate_expr env (.Unop .AbsF32 arg) sb =
        (some (.ITE (.Unop .I32to1 (.Binop .CmpF32 arg (.Const (.F32c 0))))
          (.Unop .NegF32 d) d), sbd)) ∧
      (∀ (rho : Nat → Option V) (x dv : ℚ),
        evalE rho arg = some (.q x) → evalE rho d = some (.q dv) →
        evalE rho (.ITE (.Unop .I32to1 (.Binop .CmpF64 arg (.Const (.F64c 0))))
          (.Unop .NegF64 d) d) = some (.q (if x < 0 then -dv else dv))) ∧
      (∀ (rho : Nat → Option V) (x dv : ℚ),
        evalE rho arg = some (.q x) → evalE rho d = some (.q dv) →
        evalE rho (.ITE (.Unop .I32to1 (.Binop .CmpF32 arg (.Const (.F32c 0))))
          (.Unop .NegF32 d) d) = some (.q (if x < 0 then -dv else dv))) ∧
      (∀ (rho : Nat → Option V) (dv : ℚ),
        evalE rho arg = some (.q 0) → evalE rho d = some (.q dv) →
        evalE rho (.ITE (.Unop .I32to1 (.Binop .CmpF64 arg (.Const (.F64c 0))))
          (.Unop .NegF64 d) d) = some (.q dv)) := by
  intro env sb sbd arg d h
  have hsem64 : ∀ (rho : Nat → Option V) (x dv : ℚ),
      evalE rho arg = some (.q x) → evalE rho d = some (.q dv) →
      evalE rho (.ITE (.Unop .I32to1 (.Binop .CmpF64 arg (.Const (.F64c 0))))
        (.Unop .NegF64 d) d) = some (.q (if x < 0 then -dv else dv)) := by
    intro rho x dv hx hd
    simp only [evalE, hx, hd]
    rcases lt_trichotomy x 0 with hc | hc | hc
    · simp [ircrCmp, hc]
    · subst hc
      norm_num [ircrCmp]
    · have h1 : ¬ x < 0 := by linarith
      have h2 : x ≠ 0 := by linarith
      simp [ircrCmp, h1, h2]
  have hsem32 : ∀ (rho : Nat → Option V) (x dv : ℚ),
      evalE rho arg = some (.q x) → evalE rho d = some (.q dv) →
      evalE rho (.ITE (.Unop .I32to1 (.Binop .CmpF32 arg (.Const (.F32c 0))))
        (.Unop .NegF32 d) d) = some (.q (if x < 0 then -dv else dv)) := by
    intro rho x dv hx hd
    simp only [evalE, hx, hd]
    rcases lt_trichotomy x 0 with hc | hc | hc
    · simp [ircrCmp, hc]
    · subst hc
      norm_num [ircrCmp]
    · have h1 : ¬ x < 0 := by linarith
      have h2 : x ≠ 0 := by linarith
      simp [ircrCmp, h1, h2]
  refine ⟨by simp only [differentiate_expr, h],
    by simp only [differentiate_expr, h], hsem64, hsem32, ?_⟩
  intro rho dv hx hd
  have := hsem64 rho 0 dv hx hd
  simpa using this

/-- C2 witness: the AbsF64 rule at arg = t0 with shadow offset 7, and
its evaluation at x = 0 yielding the positive derivative +2. -/
theorem abs_derivative_select_witness :
    differentiate_expr ⟨7, 0⟩ (.Unop .AbsF64 (.RdTmp 0)) ⟨[], []⟩ =
      (some (.ITE (.Unop .I32to1 (.Binop .CmpF64 (.RdTmp 0) (.Const (.F64c 0))))
        (.Unop .NegF64 (.RdTmp 7)) (.RdTmp 7)), ⟨[], []⟩) ∧
    evalE (fun n => if n = 0 then some (.q 0) else if n = 7 then some (.q 2) else none)
      (.ITE (.Unop .I32to1 (.Binop .CmpF64 (.RdTmp 0) (.Const (.F64c 0))))
        (.Unop .NegF64 (.RdTmp 7)) (.RdTmp 7)) = some (.q 2) := by
  have h := abs_derivative_select ⟨7, 0⟩ ⟨[], []⟩ ⟨[], []⟩ (.RdTmp 0) (.RdTmp 7) rfl
  exact ⟨h.1, h.2.2.2.2
    (fun n => if n = 0 then some (.q 0) else if n = 7 then some (.q 2) else none)
    2 rfl rfl⟩

/-- Helper-statement freshness is antitone in the bound. -/
lemma isFreshHelperStmt_mono {m n : Nat} (hmn : m ≤ n) :
    ∀ s : Stmt, IsFreshHelperStmt n s → IsFreshHelperStmt m s := by
  intro s
  cases s <;> simp [IsFreshHelperStmt] <;> omega

/-- State discipline of `differentiate_expr`: the type environment
only grows, and the statements it appends are exclusively dirty
load-helper calls and writes into temporaries it freshly allocated
(indices at or above the incoming temporary count). -/
lemma differentiate_expr_state_spec (env : DiffEnv) (e : IRExpr) :
    ∀ sb : SB,
      sb.tyenv.length ≤ ((differentiate_expr env e sb).2).tyenv.length ∧
      ∃ tl, ((differentiate_expr env e sb).2).stmts = sb.stmts ++ tl ∧
        ∀ s ∈ tl, IsFreshHelperStmt sb.tyenv.length s := by
  induction e with
  | Const con =>
    intro sb
    exact ⟨le_refl _, [], by simp [differentiate_expr], by simp⟩
  | RdTmp tmp =>
    intro sb
    exact ⟨le_refl _, [], by simp [differentiate_expr], by simp⟩
  | Get offset ty =>
    intro sb
    exact ⟨le_refl _, [], by simp [differentiate_expr], by simp⟩
  | GetI base elemTy nElems ix bias ih =>
    intro sb
    exact ⟨le_refl _, [], by simp [differentiate_expr], by simp⟩
  | Unop op arg ih =>
    intro sb
    obtain ⟨h1, tl, h2, h3⟩ := ih sb
    rcases hr : differentiate_expr env arg sb with ⟨d, sb1⟩
    simp only [hr] at h1 h2
    have hst : (differentiate_expr env (.Unop op arg) sb).2 = sb1 := by
      simp only [differentiate_expr, hr]
      cases d <;> rfl
    rw [hst]
    exact ⟨h1, tl, h2, h3⟩
  | Binop op arg1 arg2 ih1 ih2 =>
    intro sb
    obtain ⟨h1, tl, h2, h3⟩ := ih2 sb
    rcases hr : differentiate_expr env arg2 sb with ⟨d, sb1⟩
    simp only [hr] at h1 h2
    have hst : (differentiate_expr env (.Binop op arg1 arg2) sb).2 = sb1 := by
      simp only [differentiate_expr, hr]
      cases d <;> rfl
    rw [hst]
    exact ⟨h1, tl, h2, h3⟩
  | Triop op arg1 arg2 arg3 ih1 ih2 ih3 =>
    intro sb
    obtain ⟨h1, tl2, h2, h3⟩ := ih2 sb
    rcases hr2 : differentiate_expr env arg2 sb with ⟨d2, sb1⟩
    simp only [hr2] at h1 h2
    obtain ⟨g1, tl3, g2, g3⟩ := ih3 sb1
    rcases hr3 : differentiate_expr env arg3 sb1 with ⟨d3, sb2⟩
    simp only [hr3] at g1 g2
    have hst : (differentiate_expr env (.Triop op arg1 arg2 arg3) sb).2 = sb2 := by
      simp only [differentiate_expr, hr2, hr3]
      cases d2 <;> cases d3 <;> rfl
    rw [hst]
    refine ⟨le_trans h1 g1, tl2 ++ tl3, ?_, ?_⟩
    · rw [g2, h2, List.append_assoc]
    · intro s hs
      rcases List.mem_append.1 hs with h | h
      · exact h3 s h
      · exact isFreshHelperStmt_mono h1 s (g3 s h)
  | Qop op arg1 arg2 arg3 arg4 ih1 ih2 ih3 ih4 =>
    intro sb
    exact ⟨le_refl _, [], by simp [differentiate_expr], by simp⟩
  | ITE cond iftrue iffalse ihc iht ihf =>
    intro sb
    obtain ⟨h1, tl2, h2, h3⟩ := iht sb
    rcases hr2 : differentiate_expr env iftrue sb with ⟨d2, sb1⟩
    simp only [hr2] at h1 h2
    obtain ⟨g1, tl3, g2, g3⟩ := ihf sb1
    rcases hr3 : differentiate_expr env iffalse sb1 with ⟨d3, sb2⟩
    simp only [hr3] at g1 g2
    have hst : (differentiate_expr env (.ITE cond iftrue iffalse) sb).2 = sb2 := by
      simp only [differentiate_expr, hr2, hr3]
      cases d2 <;> cases d3 <;> rfl
    rw [hst]
    refine ⟨le_trans h1 g1, tl2 ++ tl3, ?_, ?_⟩
    · rw [g2, h2, List.append_assoc]
    · intro s hs
      rcases List.mem_append.1 hs with h | h
      · exact h3 s h
      · exact isFreshHelperStmt_mono h1 s (g3 s h)
  | Load ty addr ih =>
    intro sb
    by_cases hty : canConvertToI64 ty
    · refine ⟨?_,
        [.DirtyLoadS sb.tyenv.length (nlLoadFname (sizeofIRType ty)) addr,
         .WrTmpS (sb.tyenv.length + 1) (convertFromInteger (.RdTmp sb.tyenv.length) ty)],
        ?_, ?_⟩
      · simp [differentiate_expr, hty, newIRTemp, addStmt]
      · simp [differentiate_expr, hty, newIRTemp, addStmt]
      · intro s hs
        simp only [List.mem_cons, List.not_mem_nil, or_false] at hs
        rcases hs with h | h
        · subst h
          simp [IsFreshHelperStmt]
        · subst h
          simp [IsFreshHelperStmt]
    · simp [differentiate_expr, hty]
  | CCall fname retty a1 a2 a3 a4 ih1 ih2 ih3 ih4 =>
    intro sb
    exact ⟨le_refl _, [], by simp [differentiate_expr], by simp⟩

/-- Every statement present after a `differentiate_expr` call was
either already there or is one of its fresh helper statements. -/
lemma differentiate_expr_output_mem (env : DiffEnv) (data : IRExpr) (sb : SB)
    {r : Option IRExpr} {sbd : SB} (hd : differentiate_expr env data sb = (r, sbd)) :
    ∀ s ∈ sbd.stmts, s ∈ sb.stmts ∨ IsFreshHelperStmt sb.tyenv.length s := by
  obtain ⟨h1, tl, h2, h3⟩ := differentiate_expr_state_spec env data sb
  simp only [hd] at h2
  intro s hs
  rw [h2] at hs
  rcases List.mem_append.1 hs with h | h
  · exact Or.inl h
  · exact Or.inr (h3 s h)

/-- C3: for every statement handler that differentiates its data
expression, an Unsupported (none) result leaves the handler output
exactly at the post-differentiation state — in particular, among the
statements present no new one writes the destination's shadow (the
shadow temporary `tmp + t_offset`, the shadow register offset, the
shadow register-array base, a store-helper call, or the shadow of the
guarded load's destination) — and the warning diagnostic is printed
exactly when the handler's warn flag is set, which is exactly when the
destination's type is Ity_F64 or Ity_F32.  The bounds
`… + t_offset < sb.tyenv.length` record that the destination's shadow
temporary was allocated before instrumentation begins (nl_instrument
doubles the temporaries first), so it is distinct from the fresh
helper temporaries. -/
theorem unsupported_expr_failure_semantics :
    ∀ (env : DiffEnv) (tyIn : List IRType) (sb sbd : SB),
      (∀ tmp data, differentiate_expr env data sb = (none, sbd) →
        tmp + env.t_offset < sb.tyenv.length →
        nl_instrument_stmt env tyIn sb (.WrTmp tmp data) =
          (sbd, (tyIn.getD tmp .I64 == .F64 || tyIn.getD tmp .I64 == .F32)) ∧
        ∀ s ∈ sbd.stmts, s ∈ sb.stmts ∨ ¬ writesTempN (tmp + env.t_offset) s) ∧
      (∀ offset data, differentiate_expr env data sb = (none, sbd) →
        nl_instrument_stmt env tyIn sb (.Put offset data) =
          (sbd, (typeOfIRExpr tyIn data == .F64 || typeOfIRExpr tyIn data == .F32)) ∧
        ∀ s ∈ sbd.stmts, s ∈ sb.stmts ∨ ¬ isPutAt (offset + env.gs_offset) s) ∧
      (∀ base elemTy nElems ix bias data,
        differentiate_expr env data sb = (none, sbd) →
        nl_instrument_stmt env tyIn sb (.PutI base elemTy nElems ix bias data) =
          (sbd, (typeOfIRExpr tyIn data == .F64 || typeOfIRExpr tyIn data == .F32)) ∧
        ∀ s ∈ sbd.stmts, s ∈ sb.stmts ∨ ¬ isPutIAt (base + env.gs_offset) s) ∧
      (∀ addr data, canConvertToI64 (typeOfIRExpr tyIn data) = true →
        differentiate_expr env data sb = (none, sbd) →
        nl_instrument_stmt env tyIn sb (.Store addr data) =
          (sbd, (typeOfIRExpr tyIn data == .F64 || typeOfIRExpr tyIn data == .F32)) ∧
        ∀ s ∈ sbd.stmts, s ∈ sb.stmts ∨ ¬ isStoreHelperCall s) ∧
      (∀ addr data guard, canConvertToI64 (typeOfIRExpr tyIn data) = true →
        differentiate_expr env data sb = (none, sbd) →
        nl_instrument_stmt env tyIn sb (.StoreG addr data guard) =
          (sbd, (typeOfIRExpr tyIn data == .F64 || typeOfIRExpr tyIn data == .F32)) ∧
        ∀ s ∈ sbd.stmts, s ∈ sb.stmts ∨ ¬ isStoreHelperCall s) ∧
      (∀ dst addr alt guard, canConvertToI64 (tyIn.getD dst .I64) = true →
        differentiate_expr env alt sb = (none, sbd) →
        dst + env.t_offset < sb.tyenv.length →
        nl_instrument_stmt env tyIn sb (.LoadG dst addr alt guard) =
          (sbd, (tyIn.getD dst .I64 == .F64 || tyIn.getD dst .I64 == .F32)) ∧
        ∀ s ∈ sbd.stmts, s ∈ sb.stmts ∨ ¬ writesTempN (dst + env.t_offset) s) := by
  intro env tyIn sb sbd
  refine ⟨?_, ?_, ?_, ?_, ?_, ?_⟩
  · intro tmp data hd htmp
    constructor
    · simp only [nl_instrument_stmt, differentiate_or_warn, hd]
      simp
    · intro s hs
      rcases differentiate_expr_output_mem env data sb hd s hs with h | h
      · exact Or.inl h
      · right
        cases s <;> simp [IsFreshHelperStmt, writesTempN] at h ⊢ <;> omega
  · intro offset data hd
    constructor
    · simp only [nl_instrument_stmt, differentiate_or_warn, hd]
      simp
    · intro s hs
      rcases differentiate_expr_output_mem env data sb hd s hs with h | h
      · exact Or.inl h
      · right
        cases s <;> simp [IsFreshHelperStmt, isPutAt] at h ⊢
  · intro base elemTy nElems ix bias data hd
    constructor
    · simp only [nl_instrument_stmt, differentiate_or_warn, hd]
      simp
    · intro s hs
      rcases differentiate_expr_output_mem env data sb hd s hs with h | h
      · exact Or.inl h
      · right
        cases s <;> simp [IsFreshHelperStmt, isPutIAt] at h ⊢
  · intro addr data hconv hd
    constructor
    · simp only [nl_instrument_stmt, differentiate_or_warn, hconv, if_true, hd]
      simp
    · intro s hs
      rcases differentiate_expr_output_mem env data sb hd s hs with h | h
      · exact Or.inl h
      · right
        cases s <;> simp [IsFreshHelperStmt, isStoreHelperCall] at h ⊢
  · intro addr data guard hconv hd
    constructor
    · simp only [nl_instrument_stmt, differentiate_or_warn, hconv, if_true, hd]
      simp
    · intro s hs
      rcases differentiate_expr_output_mem env data sb hd s hs with h | h
      · exact Or.inl h
      · right
        cases s <;> simp [IsFreshHelperStmt, isStoreHelperCall] at h ⊢
  · intro dst addr alt guard hconv hd htmp
    constructor
    · simp only [nl_instrument_stmt, differentiate_or_warn, hconv, if_true, hd]
      simp
    · intro s hs
      rcases differentiate_expr_output_mem env alt sb hd s hs with h | h
      · exact Or.inl h
      · right
        cases s <;> simp [IsFreshHelperStmt, writesTempN] at h ⊢ <;> omega

/-- C3 witness: an unhandled And64 under a WrTmp destination of type
F64 yields no instrumentation and a printed warning; the same
expression under an I64 destination fails silently. -/
theorem unsupported_expr_failure_witness :
    nl_instrument_stmt ⟨2, 7⟩ [.F64] ⟨[.F64, .F64, .F64, .F64], []⟩
      (.WrTmp 0 (.Binop .And64 (.RdTmp 0) (.RdTmp 0))) =
      (⟨[.F64, .F64, .F64, .F64], []⟩, true) ∧
    nl_instrument_stmt ⟨2, 7⟩ [.I64] ⟨[.F64, .F64, .F64, .F64], []⟩
      (.WrTmp 0 (.Binop .And64 (.RdTmp 0) (.RdTmp 0))) =
      (⟨[.F64, .F64, .F64, .F64], []⟩, false) := by
  have h1 := (unsupported_expr_failure_semantics ⟨2, 7⟩ [.F64]
    ⟨[.F64, .F64, .F64, .F64], []⟩ ⟨[.F64, .F64, .F64, .F64], []⟩).1 0
    (.Binop .And64 (.RdTmp 0) (.RdTmp 0)) rfl (by decide)
  have h2 := (unsupported_expr_failure_semantics ⟨2, 7⟩ [.I64]
    ⟨[.F64, .F64, .F64, .F64], []⟩ ⟨[.F64, .F64, .F64, .F64], []⟩).1 0
    (.Binop .And64 (.RdTmp 0) (.RdTmp 0)) rfl (by decide)
  exact ⟨h1.1, h2.1⟩

end Derivgrind
